import Mathlib

/-!
Verification of the streaming waveform renderer in `src/src/libs/WaveView.ts`
(classes `WaveView` and `ViewModel`).  The embedding is shallow: numeric
values are rationals, the mutable fields of each class become fields of a
Lean structure, and every method becomes a state-passing function that also
returns the list of drawing commands it issued to the 2D context.  The
TypeScript value `null` for `curPoints` is represented by the empty list
(the source only ever tests `curPoints && curPoints.length`, which cannot
distinguish the two).  `drawCount` and `maxCacheSize` are naturals: every
use in the source is as a non-negative integral count.
-/

namespace EcgView

/-- Drawing commands issued to the rendering surface; these are exactly the
context calls the source makes (`clearRect`, `moveTo`, `lineTo`, `stroke`). -/
inductive Cmd
  | clearRect (x y w h : ℚ)
  | moveTo (x y : ℚ)
  | lineTo (x y : ℚ)
  | stroke
deriving DecidableEq

/-- State of one channel renderer: class `ViewModel` of
`src/src/libs/WaveView.ts`.  `waveQ` is the FIFO of sample batches,
`curPoints` the batch currently being consumed (front-trimmed as drawn,
`[]` standing for both the empty array and `null`), `(x, y)` the cursor. -/
structure ViewModel where
  waveQ : List (List ℚ)
  curPoints : List ℚ
  width : ℚ
  height : ℚ
  clearView : Bool
  drawCount : ℕ
  median : ℚ
  baseLine : ℤ
  step : ℚ
  scaleRatio : ℚ
  maxCacheSize : ℕ
  startX : ℚ
  startY : ℚ
  x : ℚ
  y : ℚ
  padding : ℚ
deriving DecidableEq

/-- Source `calculateX`: `return this.x + this.step`. -/
def ViewModel.calculateX (m : ViewModel) : ℚ := m.x + m.step

/-- Source `calculateY`: `Math.floor(baseLine + (median - point) * scaleRatio + 0.5)`. -/
def ViewModel.calculateY (m : ViewModel) (point : ℚ) : ℤ :=
  ⌊(m.baseLine : ℚ) + (m.median - point) * m.scaleRatio + 1 / 2⌋

/-- The loop body of `drawView`: for each sample, `x = calculateX()`,
`y = calculateY(points.shift())`, then `lineTo(x, y)`.  The consumed slice is
passed as the list argument; the cursor is threaded through the model. -/
def drawSeg (m : ViewModel) : List ℚ → ViewModel × List Cmd
  | [] => (m, [])
  | p :: ps =>
    let m1 := { m with x := m.calculateX, y := (m.calculateY p : ℚ) }
    let r := drawSeg m1 ps
    (r.1, Cmd.lineTo m1.x m1.y :: r.2)

/-- Source `drawView(ctx, points, render)`: clears a strip of width `padding`
at the cursor, moves to the cursor, draws `min(points.length, drawCount)`
samples (consuming them from the front of `curPoints`, which is the array the
caller passes), strokes when `render`, then wraps `x` to `-1` when
`x >= width`. -/
def ViewModel.drawView (m : ViewModel) (render : Bool) : ViewModel × List Cmd :=
  let size := min m.curPoints.length m.drawCount
  let r := drawSeg { m with curPoints := m.curPoints.drop size } (m.curPoints.take size)
  let m1 := { r.1 with x := if r.1.width ≤ r.1.x then -1 else r.1.x }
  (m1, Cmd.clearRect m.x m.startY m.padding m.height :: Cmd.moveTo m.x m.y ::
        (r.2 ++ if render then [Cmd.stroke] else []))

/-- Fuel-indexed version of the `for (;;)` loop in `onDraw`.  Each recursive
call pops one batch off `waveQ`, so fuel `waveQ.length + 1` always suffices;
the fuel-0 answer is never reached from `ViewModel.onDraw`. -/
def onDrawGo (render : Bool) : ℕ → ViewModel → ViewModel × Bool × List Cmd
  | 0, m => (m, false, [])
  | fuel + 1, m =>
    if m.curPoints.length ≠ 0 then
      let d := m.drawView render
      if d.1.maxCacheSize = 0 ∨ d.1.waveQ.length < d.1.maxCacheSize then
        (d.1, true, d.2)
      else
        match d.1.waveQ with
        | [] => (d.1, false, d.2)
        | q :: qs =>
          let r := onDrawGo render fuel { d.1 with curPoints := q, waveQ := qs }
          (r.1, r.2.1, d.2 ++ r.2.2)
    else
      match m.waveQ with
      | [] => (m, false, [])
      | q :: qs => onDrawGo render fuel { m with curPoints := q, waveQ := qs }

/-- Source `onDraw(ctx, render)`: loop drawing the current batch; if
`maxCacheSize` is zero or the backlog is below it, return `true`; otherwise
pop the next batch into `curPoints` and keep going; with nothing buffered
return `false`. -/
def ViewModel.onDraw (m : ViewModel) (render : Bool) : ViewModel × Bool × List Cmd :=
  onDrawGo render (m.waveQ.length + 1) m

/-- Source `ViewModel.push(points)`: the guard `if (points)` only rejects
`null`/`undefined`; an actual array — empty or not — is appended to `waveQ`. -/
def ViewModel.push (m : ViewModel) (points : List ℚ) : ViewModel :=
  { m with waveQ := m.waveQ ++ [points] }

/-- Source `ViewModel.clear(ctx)`: clear the channel's rectangle when the
`clearView` flag is set, and always reset the cursor to `(-1, baseLine)`. -/
def ViewModel.clear (m : ViewModel) : ViewModel × List Cmd :=
  ({ m with x := -1, y := (m.baseLine : ℚ) },
    if m.clearView then [Cmd.clearRect m.startX m.startY m.width m.height] else [])

/-- Number of buffered samples of a channel (current batch plus queue). -/
def samples (m : ViewModel) : ℕ :=
  m.curPoints.length + (m.waveQ.map List.length).sum

/-- Whether a command is a `lineTo` (one per sample drawn). -/
def isLineTo : Cmd → Bool
  | Cmd.lineTo _ _ => true
  | _ => false

/-- Number of samples drawn in a command trace. -/
def lineCount (cs : List Cmd) : ℕ := (cs.filter isLineTo).length

/-- Interface `ViewModelOptions`: optional fields are `Option`-valued
(`none` = omitted).  `drawCount` is required in the interface. -/
structure ViewModelOptions where
  width : ℚ
  height : ℚ
  clearView : Option Bool := none
  median : ℚ
  drawCount : ℕ
  baseLine : Option ℚ := none
  step : Option ℚ := none
  scaleRatio : Option ℚ := none
  maxCacheSize : Option ℕ := none
  startX : Option ℚ := none
  startY : Option ℚ := none
  padding : Option ℚ := none
deriving DecidableEq

/-- JavaScript truthiness for an optional number, as in
`options.f ? options.f : d`: an absent or zero value falls back to `d`. -/
def truthyQ (v : Option ℚ) (d : ℚ) : ℚ :=
  match v with
  | some q => if q ≠ 0 then q else d
  | none => d

/-- JavaScript truthiness for an optional boolean, as in
`options.f ? options.f : d`: an absent or `false` value falls back to `d`. -/
def truthyB (v : Option Bool) (d : Bool) : Bool :=
  match v with
  | some b => if b then b else d
  | none => d

/-- JavaScript truthiness for an optional natural, as in
`options.f ? options.f : d`. -/
def truthyN (v : Option ℕ) (d : ℕ) : ℕ :=
  match v with
  | some n => if n ≠ 0 then n else d
  | none => d

/-- The `ViewModel` constructor: each field is initialized with the source's
`options.f ? options.f : default` pattern; `baseLine` is floored; the cursor
starts at `x = -1`, `y = baseLine`. -/
def mkViewModel (o : ViewModelOptions) : ViewModel :=
  { waveQ := []
    curPoints := []
    width := o.width
    height := o.height
    clearView := truthyB o.clearView true
    drawCount := if o.drawCount ≠ 0 then o.drawCount else 1
    median := o.median
    baseLine := ⌊truthyQ o.baseLine (o.height / 2)⌋
    step := truthyQ o.step 1
    scaleRatio := truthyQ o.scaleRatio 1
    maxCacheSize := truthyN o.maxCacheSize 0
    startX := truthyQ o.startX 0
    startY := truthyQ o.startY 0
    x := -1
    y := (⌊truthyQ o.baseLine (o.height / 2)⌋ : ℚ)
    padding := truthyQ o.padding 16 }

/-- State of the scheduler: class `WaveView` of `src/src/libs/WaveView.ts`.
`timerOn` is whether the `setInterval` handle is non-null (the tick is
running), `recover` the auto-resume flag, `rcvTime` the last `push`
timestamp (milliseconds), `clear` the "view already cleared" flag. -/
structure WaveView where
  timerOn : Bool
  recover : Bool
  rcvTime : ℕ
  clear : Bool
  models : List ViewModel
deriving DecidableEq

/-- Source `startTimer(recover)`: starts the interval timer and records the
`recover` flag, but only when no timer is active. -/
def WaveView.startTimer (w : WaveView) (recover : Bool) : WaveView :=
  if w.timerOn = false then { w with timerOn := true, recover := recover } else w

/-- Source `stopTimer(recover)`: clears the interval timer and records the
`recover` flag, but only when a timer is active — a no-op when stopped. -/
def WaveView.stopTimer (w : WaveView) (recover : Bool) : WaveView :=
  if w.timerOn then { w with timerOn := false, recover := recover } else w

/-- Source `start()`: `startTimer(true)`. -/
def WaveView.start (w : WaveView) : WaveView := w.startTimer true

/-- Source `pause()`: `stopTimer(true)`. -/
def WaveView.pause (w : WaveView) : WaveView := w.stopTimer true

/-- Source `stop()`: `stopTimer(false)`. -/
def WaveView.stop (w : WaveView) : WaveView := w.stopTimer false

/-- The routing loop of `WaveView.push`: `models[i].push(waves[i])` for
`i < min(models.length, waves.length)`; extra batches are ignored. -/
def pushRoute : List ViewModel → List (List ℚ) → List ViewModel
  | [], _ => []
  | ms, [] => ms
  | m :: ms, p :: ps => m.push p :: pushRoute ms ps

/-- Source `WaveView.push(waves)`: on a non-empty wave array, record the
arrival time, route each batch to its channel, and restart the timer when it
is off and `recover` is set. -/
def WaveView.push (w : WaveView) (now : ℕ) (waves : List (List ℚ)) : WaveView :=
  if waves.length ≠ 0 then
    let w1 := { w with rcvTime := now, models := pushRoute w.models waves }
    if w1.timerOn = false ∧ w1.recover = true then w1.startTimer true else w1
  else w

/-- The per-tick draw pass over all channels: each channel's `onDraw` is
invoked (with `render` true, as both the single- and multi-channel paths of
the source do) and the output flags are OR-ed. -/
def drawModels : List ViewModel → List ViewModel × Bool × List Cmd
  | [] => ([], false, [])
  | m :: ms =>
    let r := m.onDraw true
    let rest := drawModels ms
    (r.1 :: rest.1, (r.2.1 || rest.2.1), r.2.2 ++ rest.2.2)

/-- The clear pass of `WaveView.clearView`: every channel's `clear` runs in
order (in the multi-channel path each call is wrapped in try/catch; this is
the error-free semantics). -/
def clearModels : List ViewModel → List ViewModel × List Cmd
  | [] => ([], [])
  | m :: ms =>
    let r := m.clear
    let rest := clearModels ms
    (r.1 :: rest.1, r.2 ++ rest.2)

/-- Source `WaveView.clearView()`: draw the (empty) background, clear every
channel, and set the `clear` flag. -/
def WaveView.clearView (w : WaveView) : WaveView × List Cmd :=
  let r := clearModels w.models
  ({ w with models := r.1, clear := true }, r.2)

/-- Source `WaveView.draw()`: run every channel's `onDraw`; when no channel
produced output and at least 2000 ms passed since the last arrival, clear
the view and pause. -/
def WaveView.draw (w : WaveView) (now : ℕ) : WaveView × List Cmd :=
  let r := drawModels w.models
  let w1 := { w with models := r.1 }
  if r.2.1 = false then
    if 2000 ≤ now - w1.rcvTime then
      let c := w1.clearView
      (c.1.pause, r.2.2 ++ c.2)
    else (w1, r.2.2)
  else (w1, r.2.2)

/-- External operations on the scheduler.  `tick now` is the periodic timer
callback firing at wall-clock time `now`; it runs `draw` only while the
interval timer is active (a cancelled timer never fires). -/
inductive Op
  | push (now : ℕ) (waves : List (List ℚ))
  | start
  | pause
  | stop
  | tick (now : ℕ)
deriving DecidableEq

/-- One operation applied to the scheduler, with the commands it issued. -/
def applyOp (w : WaveView) : Op → WaveView × List Cmd
  | Op.push now waves => (w.push now waves, [])
  | Op.start => (w.start, [])
  | Op.pause => (w.pause, [])
  | Op.stop => (w.stop, [])
  | Op.tick now => if w.timerOn then w.draw now else (w, [])

/-- A sequence of operations applied in order. -/
def runOps (w : WaveView) : List Op → WaveView
  | [] => w
  | op :: ops => runOps (applyOp w op).1 ops

/-- The freshly constructed scheduler: timer handle null, `recover` true,
`rcvTime` zero, `clear` false, with the channels the init callback created. -/
def initWaveView (ms : List ViewModel) : WaveView :=
  { timerOn := false, recover := true, rcvTime := 0, clear := false, models := ms }

/-- Iterated channel ticks: `onDraw` run `n` times, traces concatenated. -/
def runTicksM : ℕ → ViewModel → ViewModel × List Cmd
  | 0, m => (m, [])
  | n + 1, m =>
    let r := m.onDraw true
    let rest := runTicksM n r.1
    (rest.1, r.2.2 ++ rest.2)

/-- Exception semantics of the per-channel draw loop in `WaveView.draw`
(`for (const m of this.models) drawFlag = m.onDraw(this.ctx, true) || drawFlag`):
the rendering surface throws on the channels `i` with `fails i = true`; the
loop body has no try/catch, so a throw aborts the loop and propagates out of
the tick.  Returns the indices of the channels whose draw was invoked (the
throwing one included) and whether the loop ran to completion.  Channel
state updates are elided: the claim is about which draws are invoked. -/
def drawChannelsExc (fails : ℕ → Bool) : ℕ → List ViewModel → List ℕ × Bool
  | _, [] => ([], true)
  | i, _ :: ms =>
    if fails i then ([i], false)
    else
      let r := drawChannelsExc fails (i + 1) ms
      (i :: r.1, r.2)

/-- Exception semantics of the multi-channel clear loop in
`WaveView.clearView`: each `m.clear(ctx)` is wrapped in its own try/catch,
so a throwing channel (its `clearRect` call fails before the cursor reset
runs, leaving the model unchanged) is caught and the loop continues.
Returns the updated models and the indices of the channels whose clear was
invoked.  A channel with `clearView = false` makes no surface call, so it
cannot throw. -/
def clearChannelsExc (fails : ℕ → Bool) : ℕ → List ViewModel → List ViewModel × List ℕ
  | _, [] => ([], [])
  | i, m :: ms =>
    let m1 := if m.clearView && fails i then m else (m.clear).1
    let r := clearChannelsExc fails (i + 1) ms
    (m1 :: r.1, i :: r.2)

/-- A plain channel configuration used by concrete instances: defaults for
everything optional, `drawCount = 1`. -/
def oW : ViewModelOptions := { width := 1000, height := 200, median := 0, drawCount := 1 }

/-- Channel configured with `maxCacheSize = 1`, `drawCount = 1`. -/
def oC1x : ViewModelOptions :=
  { width := 1000, height := 200, median := 0, drawCount := 1, maxCacheSize := some 1 }

/-- Channel with `maxCacheSize = 1` holding the batches `[1, 2]` and `[3]`:
three samples pushed in total. -/
def mC1x : ViewModel := ((mkViewModel oC1x).push [1, 2]).push [3]

/-- Channel with `maxCacheSize = 0` holding one one-sample batch. -/
def mW1 : ViewModel := (mkViewModel oW).push [5]

/-- The configuration of the numerical scenario: width 300, median 512,
baseLine 100, step 0.5, scaleRatio 0.6, drawCount 8, maxCacheSize 0. -/
def o8 : ViewModelOptions :=
  { width := 300, height := 200, median := 512, drawCount := 8, baseLine := some 100,
    step := some (1 / 2), scaleRatio := some (3 / 5), maxCacheSize := some 0 }

/-- The scenario channel after pushing one batch of 8 samples equal to 512. -/
def m8 : ViewModel := (mkViewModel o8).push (List.replicate 8 512)

/-- Options with every optional field explicitly supplied, `clearView`
explicitly `false`. -/
def o9 : ViewModelOptions :=
  { width := 10, height := 20, median := 0, drawCount := 2, clearView := some false,
    baseLine := some 7, step := some 3, scaleRatio := some 2, padding := some 5 }

/-- A running scheduler with one idle channel (nothing buffered). -/
def wIdle : WaveView :=
  { timerOn := true, recover := true, rcvTime := 0, clear := false, models := [mkViewModel oW] }

/-! Helper lemmas: projections preserved by the draw functions. -/

theorem drawSeg_waveQ (m : ViewModel) (l : List ℚ) : (drawSeg m l).1.waveQ = m.waveQ := by
  induction l generalizing m with
  | nil => rfl
  | cons p ps ih => simp [drawSeg, ih]

theorem drawSeg_curPoints (m : ViewModel) (l : List ℚ) :
    (drawSeg m l).1.curPoints = m.curPoints := by
  induction l generalizing m with
  | nil => rfl
  | cons p ps ih => simp [drawSeg, ih]

theorem drawSeg_maxCacheSize (m : ViewModel) (l : List ℚ) :
    (drawSeg m l).1.maxCacheSize = m.maxCacheSize := by
  induction l generalizing m with
  | nil => rfl
  | cons p ps ih => simp [drawSeg, ih]

theorem lineCount_append (a b : List Cmd) : lineCount (a ++ b) = lineCount a + lineCount b := by
  simp [lineCount, List.filter_append]

theorem lineCount_drawSeg (m : ViewModel) (l : List ℚ) :
    lineCount (drawSeg m l).2 = l.length := by
  induction l generalizing m with
  | nil => simp [drawSeg, lineCount]
  | cons p ps ih => simp [drawSeg, lineCount, isLineTo] at ih ⊢; exact ih _

theorem drawView_waveQ (m : ViewModel) (r : Bool) : ((m.drawView r).1).waveQ = m.waveQ := by
  simp [ViewModel.drawView, drawSeg_waveQ]

theorem drawView_maxCacheSize (m : ViewModel) (r : Bool) :
    ((m.drawView r).1).maxCacheSize = m.maxCacheSize := by
  simp [ViewModel.drawView, drawSeg_maxCacheSize]

theorem drawView_curPoints (m : ViewModel) (r : Bool) :
    ((m.drawView r).1).curPoints = m.curPoints.drop (min m.curPoints.length m.drawCount) := by
  simp [ViewModel.drawView, drawSeg_curPoints]

theorem lineCount_drawView (m : ViewModel) (r : Bool) :
    lineCount (m.drawView r).2 = min m.curPoints.length m.drawCount := by
  cases r <;>
    simp [ViewModel.drawView, lineCount, isLineTo, List.filter_append, lineCount_drawSeg,
      show ∀ k (mm : ViewModel), ((drawSeg mm (m.curPoints.take k)).2.filter isLineTo).length
          = (m.curPoints.take k).length from fun k mm => lineCount_drawSeg mm _]

theorem onDrawGo_maxCacheSize (r : Bool) (f : ℕ) (m : ViewModel) :
    (onDrawGo r f m).1.maxCacheSize = m.maxCacheSize := by
  induction f generalizing m with
  | zero => rfl
  | succ f ih =>
    simp only [onDrawGo]
    split
    · split
      · exact drawView_maxCacheSize m r
      · split
        · exact drawView_maxCacheSize m r
        · rename_i q qs hq
          have h1 := ih { (m.drawView r).1 with curPoints := q, waveQ := qs }
          have h2 : ({ (m.drawView r).1 with curPoints := q, waveQ := qs } :
              ViewModel).maxCacheSize = m.maxCacheSize := drawView_maxCacheSize m r
          exact h2 ▸ h1
    · split
      · rfl
      · rename_i q qs hq
        exact ih { m with curPoints := q, waveQ := qs }

/-- Core of the catch-up bound: with a positive `maxCacheSize` and enough
fuel, one `onDraw` leaves the queue strictly below the threshold. -/
theorem onDrawGo_backlog (r : Bool) (f : ℕ) (m : ViewModel)
    (hf : m.waveQ.length < f) (h : 0 < m.maxCacheSize) :
    (onDrawGo r f m).1.waveQ.length < m.maxCacheSize := by
  induction f generalizing m with
  | zero => omega
  | succ f ih =>
    simp only [onDrawGo]
    split
    · split
      · rename_i hcond
        have h1 := drawView_waveQ m r
        have h2 := drawView_maxCacheSize m r
        rcases hcond with h0 | hlt
        · rw [h2] at h0; omega
        · show ((m.drawView r).1).waveQ.length < m.maxCacheSize
          rw [h1]
          rw [h1, h2] at hlt
          exact hlt
      · split
        · rename_i hq
          show ((m.drawView r).1).waveQ.length < m.maxCacheSize
          rw [hq]
          simpa using h
        · rename_i q qs hq
          have hq' : m.waveQ = q :: qs := by rw [← drawView_waveQ m r]; exact hq
          have hmcs : ({ (m.drawView r).1 with curPoints := q, waveQ := qs } :
              ViewModel).maxCacheSize = m.maxCacheSize := drawView_maxCacheSize m r
          have hlen : ({ (m.drawView r).1 with curPoints := q, waveQ := qs } :
              ViewModel).waveQ.length < f := by
            show qs.length < f
            rw [hq'] at hf
            simp at hf
            omega
          have hrec := ih _ hlen (by rw [hmcs]; exact h)
          rw [hmcs] at hrec
          exact hrec
    · split
      · rename_i hq
        show m.waveQ.length < m.maxCacheSize
        rw [hq]
        simpa using h
      · rename_i q qs hq
        refine ih { m with curPoints := q, waveQ := qs } ?_ h
        show qs.length < f
        rw [hq] at hf
        simp at hf
        omega

/-- Core of sample conservation for `maxCacheSize = 0`: one `onDraw` never
drops a sample (buffered before = buffered after + drawn), and a tick that
reports no output can only happen with zero buffered samples. -/
theorem onDrawGo_conserve (r : Bool) (f : ℕ) (m : ViewModel)
    (hf : m.waveQ.length < f) (h : m.maxCacheSize = 0) :
    samples m = samples (onDrawGo r f m).1 + lineCount (onDrawGo r f m).2.2 ∧
    ((onDrawGo r f m).2.1 = false → samples m = 0) := by
  induction f generalizing m with
  | zero => omega
  | succ f ih =>
    simp only [onDrawGo]
    split
    · rename_i hc
      rw [if_pos (Or.inl (show ((m.drawView r).1).maxCacheSize = 0 by
        rw [drawView_maxCacheSize]; exact h))]
      constructor
      · show samples m = samples (m.drawView r).1 + lineCount (m.drawView r).2
        have e1 := drawView_curPoints m r
        have e2 := drawView_waveQ m r
        have e3 := lineCount_drawView m r
        have hk : min m.curPoints.length m.drawCount ≤ m.curPoints.length :=
          Nat.min_le_left _ _
        simp [samples, e1, e2, e3, List.length_drop]
        omega
      · intro hh
        exact absurd hh (by simp)
    · rename_i hc
      have hc0 : m.curPoints.length = 0 := by omega
      split
      · rename_i hq
        constructor
        · simp [lineCount]
        · intro _
          simp [samples, hq, hc0]
      · rename_i q qs hq
        have hlen : ({ m with curPoints := q, waveQ := qs } : ViewModel).waveQ.length < f := by
          show qs.length < f
          rw [hq] at hf
          simp at hf
          omega
        have hrec := ih { m with curPoints := q, waveQ := qs } hlen h
        have hsame : samples m = samples { m with curPoints := q, waveQ := qs } := by
          simp [samples, hq, hc0]
        constructor
        · rw [hsame]
          exact hrec.1
        · intro hflag
          rw [hsame]
          exact hrec.2 hflag

/-- With `maxCacheSize = 0` and a non-empty current batch, one `onDraw` loop
step draws and returns at once, leaving the queue alone (any fuel `f + 1`). -/
theorem onDrawGo_zero_busy (mm : ViewModel) (h0 : mm.maxCacheSize = 0)
    (hcp : mm.curPoints ≠ []) (f : ℕ) :
    (onDrawGo true (f + 1) mm).1.waveQ = mm.waveQ := by
  simp only [onDrawGo]
  rw [if_pos (show mm.curPoints.length ≠ 0 from
    fun hzero => hcp (List.length_eq_zero.mp hzero))]
  rw [if_pos (Or.inl (show ((mm.drawView true).1).maxCacheSize = 0 by
    rw [drawView_maxCacheSize]; exact h0))]
  exact drawView_waveQ mm true

/-- With `maxCacheSize = 0` and no empty batches queued, one `onDraw`
performs at most one batch transition: the queue is unchanged or loses
exactly its head. -/
theorem onDraw_zero_tail (m : ViewModel) (h : m.maxCacheSize = 0)
    (hne : ∀ b ∈ m.waveQ, b ≠ []) :
    (m.onDraw true).1.waveQ = m.waveQ ∨ (m.onDraw true).1.waveQ = m.waveQ.tail := by
  by_cases hcp : m.curPoints = []
  · by_cases hw : m.waveQ = []
    · left
      show (onDrawGo true (m.waveQ.length + 1) m).1.waveQ = m.waveQ
      simp only [onDrawGo]
      rw [if_neg (by simp [hcp])]
      rw [hw]
      simpa using hw.symm
    · obtain ⟨q, qs, hw'⟩ := List.exists_cons_of_ne_nil hw
      right
      show (onDrawGo true (m.waveQ.length + 1) m).1.waveQ = m.waveQ.tail
      simp only [onDrawGo]
      rw [if_neg (by simp [hcp])]
      rw [hw']
      have hq : q ≠ [] := hne q (by rw [hw']; exact List.mem_cons_self q qs)
      have hb := onDrawGo_zero_busy { m with curPoints := q, waveQ := qs } h hq qs.length
      simpa using hb
  · left
    show (onDrawGo true (m.waveQ.length + 1) m).1.waveQ = m.waveQ
    exact onDrawGo_zero_busy m h hcp m.waveQ.length

/-- Pushing batches never changes `maxCacheSize`. -/
theorem foldl_push_maxCacheSize (m : ViewModel) (bs : List (List ℚ)) :
    (bs.foldl ViewModel.push m).maxCacheSize = m.maxCacheSize := by
  induction bs generalizing m with
  | nil => rfl
  | cons b bs ih => exact ih (m.push b)

/-- One `onDraw` never drops samples when `maxCacheSize = 0`, stated at the
`ViewModel.onDraw` entry point. -/
theorem onDraw_conserve (m : ViewModel) (h : m.maxCacheSize = 0) :
    samples m = samples (m.onDraw true).1 + lineCount (m.onDraw true).2.2 ∧
    ((m.onDraw true).2.1 = false → samples m = 0) :=
  onDrawGo_conserve true (m.waveQ.length + 1) m (by omega) h

/-- `onDraw` preserves `maxCacheSize` at the entry point. -/
theorem onDraw_maxCacheSize (m : ViewModel) (r : Bool) :
    ((m.onDraw r).1).maxCacheSize = m.maxCacheSize :=
  onDrawGo_maxCacheSize r (m.waveQ.length + 1) m

/-- Conservation over iterated ticks when `maxCacheSize = 0`. -/
theorem runTicks_conserve (n : ℕ) (m : ViewModel) (h : m.maxCacheSize = 0) :
    samples m = samples (runTicksM n m).1 + lineCount (runTicksM n m).2 := by
  induction n generalizing m with
  | zero => simp [runTicksM, lineCount]
  | succ n ih =>
    simp only [runTicksM]
    have h1 := (onDraw_conserve m h).1
    have h2 := ih (m.onDraw true).1 (by rw [onDraw_maxCacheSize]; exact h)
    rw [lineCount_append]
    omega

/-- C1 counterexample: the claim "no sample is silently dropped, in
particular the remaining unconsumed samples of currentBatch are still drawn
when the next batch is popped" is false.  With `maxCacheSize = 1` and
`drawCount = 1`, the channel `mC1x` holds 3 pushed samples (`[1, 2]` and
`[3]`); ticking to exhaustion draws only 2 `lineTo` commands: after the
first slice the backlog is at the threshold, so `onDraw` pops the next
batch over `curPoints`, discarding the unconsumed sample `2`. -/
theorem claim1_counterexample :
    samples mC1x = 3 ∧ lineCount (runTicksM 2 mC1x).2 = 2 ∧
    ((runTicksM 2 mC1x).1.onDraw true).2.1 = false := by decide

/-- C1 as amended: sample conservation holds exactly in the no-catch-up
mode.  When `maxCacheSize = 0`, one `onDraw` draws precisely the samples it
removes from the buffer (buffered before = buffered after + lineTo count), a
tick reporting no output implies zero buffered samples, and conservation
extends to any number of ticks — hence ticking to exhaustion draws every
pushed sample.  (When `maxCacheSize > 0` samples can be dropped during
catch-up, per the counterexample.) -/
theorem claim1_conservation (m : ViewModel) (h : m.maxCacheSize = 0) :
    (samples m = samples (m.onDraw true).1 + lineCount (m.onDraw true).2.2) ∧
    ((m.onDraw true).2.1 = false → samples m = 0) ∧
    ∀ n, samples m = samples (runTicksM n m).1 + lineCount (runTicksM n m).2 :=
  ⟨(onDraw_conserve m h).1, (onDraw_conserve m h).2, fun n => runTicks_conserve n m h⟩

/-- C1 witness: the conservation theorem applied to the concrete channel
`mW1` (`maxCacheSize = 0`, one buffered sample). -/
theorem claim1_witness :
    mW1.maxCacheSize = 0 ∧
    samples mW1 = samples (mW1.onDraw true).1 + lineCount (mW1.onDraw true).2.2 :=
  ⟨by decide, (claim1_conservation mW1 (by decide)).1⟩

/-- C2: for a channel with `maxCacheSize = k > 0`, after enqueuing `k + 1`
non-empty batches one `onDraw` leaves the queue below the threshold (in fact
strictly below `k`, which subsumes full exhaustion since an empty queue has
length `0 < k`); and with `maxCacheSize = 0` and no empty batches queued, at
most one batch transition happens per tick (the queue is unchanged or loses
exactly its head batch). -/
theorem claim2_catchup (m : ViewModel) (k : ℕ) (hk : 0 < k) (hmcs : m.maxCacheSize = k)
    (bs : List (List ℚ)) (hlen : bs.length = k + 1) (hne : ∀ b ∈ bs, b ≠ []) :
    (((bs.foldl ViewModel.push m).onDraw true).1.waveQ.length < k ∨
      ((bs.foldl ViewModel.push m).onDraw true).1.waveQ = []) ∧
    ∀ m2 : ViewModel, m2.maxCacheSize = 0 → (∀ b ∈ m2.waveQ, b ≠ []) →
      ((m2.onDraw true).1.waveQ = m2.waveQ ∨ (m2.onDraw true).1.waveQ = m2.waveQ.tail) := by
  constructor
  · left
    have hp : (bs.foldl ViewModel.push m).maxCacheSize = k := by
      rw [foldl_push_maxCacheSize]; exact hmcs
    have hb := onDrawGo_backlog true ((bs.foldl ViewModel.push m).waveQ.length + 1)
      (bs.foldl ViewModel.push m) (by omega) (by rw [hp]; omega)
    rw [hp] at hb
    exact hb
  · intro m2 h2 hne2
    exact onDraw_zero_tail m2 h2 hne2

/-- C2 witness: the catch-up theorem applied to the concrete channel built
from `oC1x` (`maxCacheSize = 1`) with the two batches `[1]` and `[2]`. -/
theorem claim2_witness :
    (mkViewModel oC1x).maxCacheSize = 1 ∧
    (((([[1], [2]] : List (List ℚ)).foldl ViewModel.push (mkViewModel oC1x)).onDraw
        true).1.waveQ.length < 1 ∨
      ((([[1], [2]] : List (List ℚ)).foldl ViewModel.push (mkViewModel oC1x)).onDraw
        true).1.waveQ = []) :=
  ⟨by decide, (claim2_catchup (mkViewModel oC1x) 1 (by decide) (by decide) [[1], [2]]
    (by decide) (by decide)).1⟩

/-- C6 counterexample: enqueue of an empty batch is not a no-op.  The source
guard `if (points)` only rejects null/undefined; pushing the empty array
appends it, so the fresh channel's queue changes from `[]` to `[[]]`. -/
theorem claim6_counterexample :
    ((mkViewModel oW).push []).waveQ = [[]] ∧ (mkViewModel oW).waveQ = [] := by decide

/-- C6 as amended: `push` appends every actual batch — empty or not — at the
back of the queue (only a null/undefined argument is a no-op), and changes
nothing else; an empty batch enqueued into an idle channel is harmless: the
next tick pops and skips it, reporting no output and issuing no commands. -/
theorem claim6_push (m : ViewModel) (p : List ℚ) :
    (m.push p).waveQ = m.waveQ ++ [p] ∧
    (m.push p).curPoints = m.curPoints ∧ (m.push p).x = m.x ∧ (m.push p).y = m.y ∧
    (m.curPoints = [] → m.waveQ = [] →
      ((m.push []).onDraw true).2.1 = false ∧ ((m.push []).onDraw true).2.2 = []) := by
  refine ⟨rfl, rfl, rfl, rfl, ?_⟩
  intro hcp hw
  have key : ∀ M : ViewModel, M.curPoints = [] → M.waveQ = [[]] →
      (M.onDraw true).2.1 = false ∧ (M.onDraw true).2.2 = [] := by
    intro M hMc hMw
    have : M.onDraw true = onDrawGo true (M.waveQ.length + 1) M := rfl
    rw [this, hMw]
    simp [onDrawGo, hMc, hMw]
  exact key (m.push []) (by show m.curPoints = []; exact hcp)
    (by show m.waveQ ++ [[]] = [[]]; rw [hw]; rfl)

/-- C9 counterexample: a channel constructed with `clearView` explicitly set
to `false` does not have `clearView = false`.  The constructor's pattern
`options.clearView ? options.clearView : true` treats the supplied `false`
as falsy and falls back to the default, yielding `true`. -/
theorem claim9_counterexample :
    o9.clearView = some false ∧ (mkViewModel o9).clearView = true := by decide

/-- C9 as amended: an optional field takes the caller's supplied value only
when that value is truthy (`true` or nonzero); a falsy supplied value
(`false`, `0`) falls back to the default exactly as an omitted field does.
In particular `clearView` is always `true`; truthy `step`, `scaleRatio`,
`baseLine` (floored), `padding` and a nonzero `drawCount` are honored. -/
theorem claim9_defaults (o : ViewModelOptions) :
    (mkViewModel o).clearView = true ∧
    (∀ s : ℚ, s ≠ 0 → o.step = some s → (mkViewModel o).step = s) ∧
    (∀ s : ℚ, s ≠ 0 → o.scaleRatio = some s → (mkViewModel o).scaleRatio = s) ∧
    (∀ b : ℚ, b ≠ 0 → o.baseLine = some b → (mkViewModel o).baseLine = ⌊b⌋) ∧
    (∀ p : ℚ, p ≠ 0 → o.padding = some p → (mkViewModel o).padding = p) ∧
    (o.drawCount ≠ 0 → (mkViewModel o).drawCount = o.drawCount) ∧
    (o.step = none → (mkViewModel o).step = 1) ∧
    (o.step = some 0 → (mkViewModel o).step = 1) := by
  refine ⟨?_, ?_, ?_, ?_, ?_, ?_, ?_, ?_⟩
  · show truthyB o.clearView true = true
    rcases o.clearView with _ | b
    · rfl
    · cases b <;> rfl
  · intro s hs hsome
    show truthyQ o.step 1 = s
    rw [hsome]
    simp [truthyQ, hs]
  · intro s hs hsome
    show truthyQ o.scaleRatio 1 = s
    rw [hsome]
    simp [truthyQ, hs]
  · intro b hb hsome
    show ⌊truthyQ o.baseLine (o.height / 2)⌋ = ⌊b⌋
    rw [hsome]
    simp [truthyQ, hb]
  · intro p hp hsome
    show truthyQ o.padding 16 = p
    rw [hsome]
    simp [truthyQ, hp]
  · intro hd
    show (if o.drawCount ≠ 0 then o.drawCount else 1) = o.drawCount
    simp [hd]
  · intro hnone
    show truthyQ o.step 1 = 1
    rw [hnone]
    rfl
  · intro hzero
    show truthyQ o.step 1 = 1
    rw [hzero]
    simp [truthyQ]

/-- Cumulative effect of the per-sample loop: drawing the samples `l ++ [p]`
advances `x` by `step` once per sample and leaves `y` at
`calculateY` of the last sample — the rounded `baseLine + (median − p) × scaleRatio`. -/
theorem drawSeg_last (mm : ViewModel) (l : List ℚ) (p : ℚ) :
    (drawSeg mm (l ++ [p])).1.x = mm.x + (l.length + 1) * mm.step ∧
    (drawSeg mm (l ++ [p])).1.y = ((mm.calculateY p : ℤ) : ℚ) := by
  induction l generalizing mm with
  | nil =>
    constructor
    · show mm.calculateX = mm.x + (0 + 1) * mm.step
      simp [ViewModel.calculateX]
    · rfl
  | cons a l ih =>
    have hstep := ih { mm with x := mm.calculateX, y := ((mm.calculateY a : ℤ) : ℚ) }
    constructor
    · simp only [List.cons_append, drawSeg, List.append_eq]
      rw [hstep.1]
      show mm.calculateX + ((l.length : ℚ) + 1) * mm.step
          = mm.x + (((a :: l).length : ℚ) + 1) * mm.step
      simp [ViewModel.calculateX, List.length_cons]
      ring
    · simp only [List.cons_append, drawSeg, List.append_eq]
      rw [hstep.2]
      rfl

/-- C8: per sample drawn the cursor advances `x` by `step` and sets `y` to
the rounded `baseLine + (median − sample) × scaleRatio` (cumulatively, a
slice of `n` samples moves `x` by `n × step` and leaves `y` at the last
sample's value); and in the concrete scenario — width 300, median 512,
baseLine 100, step 0.5, scaleRatio 0.6, drawCount 8, maxCacheSize 0, one
batch of 8 samples equal to 512 — one tick leaves the cursor at `y = 100`
with `x` advanced by 4 (from the start sentinel `-1` to `3`). -/
theorem claim8_geometry :
    (∀ (mm : ViewModel) (l : List ℚ) (p : ℚ),
      (drawSeg mm (l ++ [p])).1.x = mm.x + (l.length + 1) * mm.step ∧
      (drawSeg mm (l ++ [p])).1.y = ((mm.calculateY p : ℤ) : ℚ)) ∧
    (mkViewModel o8).x = -1 ∧ (m8.onDraw true).1.x = 3 ∧ (m8.onDraw true).1.y = 100 := by
  refine ⟨drawSeg_last, rfl, ?_, ?_⟩
  · norm_num [m8, o8, mkViewModel, truthyQ, truthyB, truthyN, ViewModel.push,
      ViewModel.onDraw, onDrawGo, ViewModel.drawView, drawSeg, ViewModel.calculateX,
      ViewModel.calculateY, List.replicate]
  · norm_num [m8, o8, mkViewModel, truthyQ, truthyB, truthyN, ViewModel.push,
      ViewModel.onDraw, onDrawGo, ViewModel.drawView, drawSeg, ViewModel.calculateX,
      ViewModel.calculateY, List.replicate]

/-- A channel with nothing buffered draws nothing: `onDraw` returns the
model unchanged with no output flag and no commands. -/
theorem onDraw_empty (m : ViewModel) (r : Bool)
    (hcp : m.curPoints = []) (hw : m.waveQ = []) : m.onDraw r = (m, false, []) := by
  have : m.onDraw r = onDrawGo r (m.waveQ.length + 1) m := rfl
  rw [this, hw]
  simp [onDrawGo, hcp, hw]

/-- The per-tick pass over all-idle channels: no model changes, no output,
no commands. -/
theorem drawModels_empty (ms : List ViewModel)
    (h : ∀ m ∈ ms, m.curPoints = [] ∧ m.waveQ = []) :
    drawModels ms = (ms, false, []) := by
  induction ms with
  | nil => rfl
  | cons m ms ih =>
    have h1 := onDraw_empty m true (h m (by simp)).1 (h m (by simp)).2
    have h2 := ih (fun m' hm' => h m' (by simp [hm']))
    simp [drawModels, h1, h2]

/-- The clear pass over channels whose `clearView` flag is set: each one is
cleared in order and its full rectangle is erased exactly once. -/
theorem clearModels_trace (ms : List ViewModel) (h : ∀ m ∈ ms, m.clearView = true) :
    clearModels ms = (ms.map (fun m => (m.clear).1),
      ms.map (fun m => Cmd.clearRect m.startX m.startY m.width m.height)) := by
  induction ms with
  | nil => rfl
  | cons m ms ih =>
    have h1 : m.clearView = true := h m (by simp)
    have h2 := ih (fun m' hm' => h m' (by simp [hm']))
    simp only [clearModels, h2, List.map_cons]
    simp [ViewModel.clear, h1]

/-- C3: on a tick where no channel produced output and at least 2000 ms have
passed since the last arrival, the scheduler clears every channel exactly
once (one `clearRect` of each channel's rectangle, in channel order), pauses
(timer stopped, `recover` set), and any later tick while stopped neither
fires nor re-clears. -/
theorem claim3_idle (w : WaveView) (now : ℕ)
    (hrun : w.timerOn = true)
    (hempty : ∀ m ∈ w.models, m.curPoints = [] ∧ m.waveQ = [])
    (hcv : ∀ m ∈ w.models, m.clearView = true)
    (hidle : w.rcvTime + 2000 ≤ now) :
    (applyOp w (Op.tick now)).1.timerOn = false ∧
    (applyOp w (Op.tick now)).1.recover = true ∧
    (applyOp w (Op.tick now)).2
      = w.models.map (fun m => Cmd.clearRect m.startX m.startY m.width m.height) ∧
    ∀ later : ℕ, applyOp (applyOp w (Op.tick now)).1 (Op.tick later)
      = ((applyOp w (Op.tick now)).1, []) := by
  have hdm := drawModels_empty w.models hempty
  have hcm := clearModels_trace w.models hcv
  have htime : 2000 ≤ now - w.rcvTime := by omega
  have hres : applyOp w (Op.tick now)
      = (⟨false, true, w.rcvTime, true, w.models.map (fun m => (m.clear).1)⟩,
        w.models.map (fun m => Cmd.clearRect m.startX m.startY m.width m.height)) := by
    simp only [applyOp, hrun, if_true]
    simp only [WaveView.draw, hdm, WaveView.clearView, WaveView.pause, WaveView.stopTimer]
    simp [htime, hcm, hrun]
  refine ⟨by rw [hres], by rw [hres], by rw [hres], ?_⟩
  intro later
  rw [hres]
  simp [applyOp]

/-- Pushing from a stopped scheduler whose `recover` flag is false updates
the channels and the arrival time but never restarts the timer. -/
theorem push_stopped (w : WaveView) (h1 : w.timerOn = false) (h2 : w.recover = false)
    (now : ℕ) (waves : List (List ℚ)) :
    (w.push now waves).timerOn = false ∧ (w.push now waves).recover = false := by
  unfold WaveView.push
  split
  · rw [if_neg (by simp [h2])]
    exact ⟨h1, h2⟩
  · exact ⟨h1, h2⟩

/-- A non-empty push always routes its batches and records the arrival
time, whatever the scheduler state. -/
theorem push_models (w : WaveView) (now : ℕ) (waves : List (List ℚ))
    (hw : waves.length ≠ 0) :
    (w.push now waves).models = pushRoute w.models waves ∧
    (w.push now waves).rcvTime = now := by
  unfold WaveView.push WaveView.startTimer
  rw [if_pos hw]
  dsimp only
  split
  · split
    · exact ⟨rfl, rfl⟩
    · exact ⟨rfl, rfl⟩
  · exact ⟨rfl, rfl⟩

/-- A stopped scheduler with `recover` false stays stopped under any
sequence of pushes. -/
theorem runOps_pushes_stopped (ops : List Op) (w : WaveView)
    (hops : ∀ op ∈ ops, ∃ n v, op = Op.push n v)
    (h1 : w.timerOn = false) (h2 : w.recover = false) :
    (runOps w ops).timerOn = false ∧ (runOps w ops).recover = false := by
  induction ops generalizing w with
  | nil => exact ⟨h1, h2⟩
  | cons op ops ih =>
    obtain ⟨n, v, rfl⟩ := hops op (List.mem_cons_self op ops)
    have hp := push_stopped w h1 h2 n v
    exact ih (w.push n v) (fun op' h' => hops op' (List.mem_cons_of_mem _ h')) hp.1 hp.2

/-- C4: after `stop()` is called while the scheduler is running, any
sequence of subsequent `push()` calls leaves the timer stopped (and the
`recover` flag false), until an explicit `start()` restarts it; the pushes
still enqueue their data (batches are routed to the channels and the
arrival time is recorded). -/
theorem claim4_stop (w : WaveView) (hrun : w.timerOn = true) (ops : List Op)
    (hops : ∀ op ∈ ops, ∃ n v, op = Op.push n v) :
    (runOps (applyOp w Op.stop).1 ops).timerOn = false ∧
    (runOps (applyOp w Op.stop).1 ops).recover = false ∧
    (applyOp (runOps (applyOp w Op.stop).1 ops) Op.start).1.timerOn = true ∧
    ∀ (now : ℕ) (waves : List (List ℚ)), waves.length ≠ 0 →
      ((runOps (applyOp w Op.stop).1 ops).push now waves).models
          = pushRoute (runOps (applyOp w Op.stop).1 ops).models waves ∧
        ((runOps (applyOp w Op.stop).1 ops).push now waves).rcvTime = now := by
  have hstop1 : (applyOp w Op.stop).1.timerOn = false := by
    simp [applyOp, WaveView.stop, WaveView.stopTimer, hrun]
  have hstop2 : (applyOp w Op.stop).1.recover = false := by
    simp [applyOp, WaveView.stop, WaveView.stopTimer, hrun]
  have hr := runOps_pushes_stopped ops _ hops hstop1 hstop2
  refine ⟨hr.1, hr.2, ?_, ?_⟩
  · have hr1 : (runOps w.stop ops).timerOn = false := hr.1
    simp [applyOp, WaveView.start, WaveView.startTimer, hr1]
  · intro now waves hw
    exact push_models _ now waves hw

/-- C4 witness: start the scheduler, stop it, then push one batch — the
timer stays off. -/
theorem claim4_witness :
    (runOps (initWaveView [mkViewModel oW]) [Op.start]).timerOn = true ∧
    (runOps (applyOp (runOps (initWaveView [mkViewModel oW]) [Op.start]) Op.stop).1
        [Op.push 5 [[1]]]).timerOn = false :=
  ⟨by decide, (claim4_stop (runOps (initWaveView [mkViewModel oW]) [Op.start])
    (by decide) [Op.push 5 [[1]]]
    (by intro op hop; rw [List.mem_singleton] at hop; exact ⟨5, [[1]], hop⟩)).1⟩

/-- C5 counterexample: the claim "calling pause() in any state sets
autoRecover = true" is false after `stop()`.  From the initial state,
`start`, `stop`, `pause` leaves `recover = false`: `pause()` delegates to
`stopTimer(true)`, which is a no-op when the timer handle is already null,
so the flag set by `stop()` survives. -/
theorem claim5_counterexample :
    (runOps (initWaveView []) [Op.start, Op.stop, Op.pause]).timerOn = false ∧
    (runOps (initWaveView []) [Op.start, Op.stop, Op.pause]).recover = false := by decide

/-- C5 as amended: `pause()` stops the tick and sets `autoRecover = true`
only when called while the scheduler is running; on an already-stopped
scheduler it is a complete no-op, leaving `autoRecover` (and everything
else) unchanged — in particular it stays false right after `stop()`. -/
theorem claim5_pause (w : WaveView) :
    (w.timerOn = true → (WaveView.pause w).timerOn = false ∧ (WaveView.pause w).recover = true) ∧
    (w.timerOn = false → WaveView.pause w = w) := by
  constructor
  · intro h
    constructor
    · simp [WaveView.pause, WaveView.stopTimer, h]
    · simp [WaveView.pause, WaveView.stopTimer, h]
  · intro h
    simp [WaveView.pause, WaveView.stopTimer, h]

/-- C7 counterexample: with two channels and a surface that throws on
channel 0's draw, the tick's draw loop invokes only channel 0 and aborts:
channel 1's draw is never invoked and the error propagates (the loop in
`WaveView.draw` has no try/catch). -/
theorem claim7_counterexample :
    (drawChannelsExc (fun i => i == 0) 0 [mkViewModel oW, mkViewModel oW]).1 = [0] ∧
    1 ∉ (drawChannelsExc (fun i => i == 0) 0 [mkViewModel oW, mkViewModel oW]).1 ∧
    (drawChannelsExc (fun i => i == 0) 0 [mkViewModel oW, mkViewModel oW]).2 = false := by
  decide

/-- C7 as amended: per-channel error isolation exists only in the
multi-channel clear loop of `clearView` (every channel's clear is invoked no
matter which channels throw); in the draw loop a throwing channel aborts the
tick at that channel, so channels after the first failing index are never
invoked. -/
theorem claim7_isolation :
    (∀ (fails : ℕ → Bool) (i : ℕ) (ms : List ViewModel),
      (clearChannelsExc fails i ms).2 = List.range' i ms.length) ∧
    (∀ (fails : ℕ → Bool) (i : ℕ) (m : ViewModel) (ms : List ViewModel),
      fails i = true → drawChannelsExc fails i (m :: ms) = ([i], false)) := by
  constructor
  · intro fails i ms
    induction ms generalizing i with
    | nil => rfl
    | cons m ms ih =>
      show _ :: (clearChannelsExc fails (i + 1) ms).2 = List.range' i (ms.length + 1)
      rw [ih (i + 1)]
      rfl
  · intro fails i m ms hf
    simp [drawChannelsExc, hf]

/-- One operation preserves the invariant "running implies recover". -/
theorem applyOp_inv (w : WaveView) (op : Op) (h : w.timerOn = true → w.recover = true) :
    (applyOp w op).1.timerOn = true → (applyOp w op).1.recover = true := by
  cases op with
  | push now waves =>
    show (w.push now waves).timerOn = true → (w.push now waves).recover = true
    unfold WaveView.push WaveView.startTimer
    split
    · dsimp only
      split
      · split
        · intro _; rfl
        · exact h
      · exact h
    · exact h
  | start =>
    show (w.startTimer true).timerOn = true → (w.startTimer true).recover = true
    unfold WaveView.startTimer
    split
    · intro _; rfl
    · exact h
  | pause =>
    show (w.stopTimer true).timerOn = true → (w.stopTimer true).recover = true
    unfold WaveView.stopTimer
    split
    · intro _; rfl
    · exact h
  | stop =>
    show (w.stopTimer false).timerOn = true → (w.stopTimer false).recover = true
    unfold WaveView.stopTimer
    split
    · intro hh; exact absurd hh (by simp)
    · exact h
  | tick now =>
    show ((if w.timerOn then w.draw now else (w, [])).1).timerOn = true →
        ((if w.timerOn then w.draw now else (w, [])).1).recover = true
    unfold WaveView.draw WaveView.clearView WaveView.pause WaveView.stopTimer
    dsimp only
    split
    all_goals try split
    all_goals try split
    all_goals
      first
      | exact h
      | (intro hh; exact absurd hh (by simp))

/-- C10: the invariant "whenever the tick is active, autoRecover is true"
holds in every state reachable from the initial stopped state by any
sequence of push / start / pause / stop / tick operations: the pair
(running, autoRecover = false) is unreachable. -/
theorem claim10_invariant (ms : List ViewModel) (ops : List Op) :
    (runOps (initWaveView ms) ops).timerOn = true →
    (runOps (initWaveView ms) ops).recover = true := by
  have key : ∀ (ops : List Op) (w : WaveView), (w.timerOn = true → w.recover = true) →
      ((runOps w ops).timerOn = true → (runOps w ops).recover = true) := by
    intro ops
    induction ops with
    | nil => intro w h; exact h
    | cons op ops ih => intro w h; exact ih (applyOp w op).1 (applyOp_inv w op h)
  exact key ops (initWaveView ms) (fun _ => rfl)

/-- C10 witness: the invariant applied to the concrete trace `[start]`,
whose final state is running with `recover = true`. -/
theorem claim10_witness :
    (runOps (initWaveView []) [Op.start]).timerOn = true ∧
    (runOps (initWaveView []) [Op.start]).recover = true :=
  ⟨by decide, claim10_invariant [] [Op.start] (by decide)⟩

/-- C3 witness: the idle-clear theorem applied to the concrete running
scheduler `wIdle` at time 2000. -/
theorem claim3_witness :
    (applyOp wIdle (Op.tick 2000)).1.timerOn = false ∧
    (applyOp wIdle (Op.tick 2000)).1.recover = true :=
  ⟨(claim3_idle wIdle 2000 rfl (by decide) (by decide) (by decide)).1,
   (claim3_idle wIdle 2000 rfl (by decide) (by decide) (by decide)).2.1⟩

end EcgView
